import Mathlib

/-
Verification of the Market-Report-Processor repository.

This development gives a shallow embedding, in Lean 4, of the parts of the
repository that the specification's testable properties talk about:

* `src/llm_summarizer.py`   — the ordered three-provider summarization
  fallback chain (`LLMSummarizer.summarize_pdf_content` and the per-provider
  helpers `_summarize_with_deepseek` / `_summarize_with_gemini` /
  `_summarize_with_qwen`);
* `src/pdf_processor.py`    — the direct watermark-redaction path
  (`PDFProcessor._remove_watermarks_direct`), the dispatcher
  (`PDFProcessor.remove_watermarks`), and the image-based heuristic path
  (`_remove_watermarks_from_image`, `_is_watermark_region_multi`);
* `src/wechat_summarizer.py` — the WeChat short-form summarizer
  (`generate_wechat_summary`, `_format_wechat_output`, `_fallback_summary`
  and its extraction helpers, and `combine_summaries`).

Modelling conventions:

* Python strings are modelled as `List Char` (`PStr`); `len` is
  `List.length`, slicing `s[:n]` is `List.take n`, concatenation is `++`.
* The remote LLM services are modelled by an environment (`LLMEnv`) carrying
  each provider's startup availability flag and the outcome of a remote
  call: `Except Unit PStr`, where `.error ()` models a raised exception and
  `.ok s` models a response whose message content is `s`.  The response is a
  function of the prompt that is sent, so prompt construction (including the
  per-provider input truncation) is part of the model.
* A PDF page is modelled as its extractable character sequence, with
  `Option Char` entries: `some c` is a still-present character, `none` is a
  position whose content has been removed by a redaction.  PyMuPDF's
  `page.search_for` is modelled as returning every exact-text occurrence,
  and `add_redact_annot`/`apply_redactions` as irreversibly blanking the
  matched characters.  (The fixed geometric margin the code adds to each
  redaction rectangle — +5 horizontal / +2 vertical units — can only remove
  additional neighbouring content; the character-index model blanks exactly
  the matched characters.)
* A rasterized page is a `CvImage`: a pixel grid with a width and a height.
  OpenCV's contour detection (threshold + dilate + findContours +
  boundingRect) is treated as an oracle: the list of candidate bounding
  rectangles is an explicit argument, and the embedding covers what the code
  does with those rectangles.
* Python's `set` iteration order (used by `combine_summaries` via
  `list(sources)` and `max(set(ratings), ...)`) is hash-based and
  unspecified; it is modelled by an explicit enumeration function passed as
  an argument, constrained where needed to be a permutation of the distinct
  elements (`List.dedup`) of the inserted values.
-/

/-- Python strings are modelled as lists of characters. -/
abbrev PStr := List Char

/-- Convert a Lean string literal to the `PStr` model. -/
def pstr (s : String) : PStr := s.data

/-- The ASCII whitespace characters recognised by Python's `str.strip()`
(restricted to the ASCII range, which is all that appears here). -/
def isPySpace (c : Char) : Bool :=
  c = ' ' || c = '\t' || c = '\n' || c = '\r' || c = '\x0b' || c = '\x0c'

/-- Python `str.strip()`: drop leading and trailing whitespace. -/
def pstrip (s : PStr) : PStr :=
  ((s.dropWhile isPySpace).reverse.dropWhile isPySpace).reverse

/-- Python `needle in haystack`: substring containment test. -/
def hasSub (needle : PStr) : PStr → Bool
  | [] => needle.isEmpty
  | c :: cs => needle.isPrefixOf (c :: cs) || hasSub needle cs

/-- Python `str.lower()` restricted to ASCII letters (the only case-carrying
characters used by the repository's keyword tables). -/
def pyLower (s : PStr) : PStr := s.map fun c => c.toLower

/- ===================================================================
   LLM summarizer (src/llm_summarizer.py)
   =================================================================== -/

/-- The state of one `LLMSummarizer` run: the availability flag of each
provider, fixed at client initialisation, together with the behaviour of
each remote service — as a function from the prompt that is sent to either
a raised exception (`.error ()`) or the returned message content. -/
structure LLMEnv where
  deepseekAvailable : Bool
  geminiAvailable : Bool
  qwenAvailable : Bool
  deepseekResponse : PStr → Except Unit PStr
  geminiResponse : PStr → Except Unit PStr
  qwenResponse : PStr → Except Unit PStr

/-- The truncation marker `"\n\n[内容已截断...]"` appended by every
`_summarize_with_*` helper when the input text exceeds the provider's
limit. -/
def truncMarker : PStr := pstr "\n\n[内容已截断...]"

/-- `_summarize_with_deepseek`, text preparation: truncate the raw text to
20000 characters and append the truncation marker (lines 116-118). -/
def deepseekPrepared (t : PStr) : PStr :=
  if 20000 < t.length then t.take 20000 ++ truncMarker else t

/-- `_summarize_with_gemini`, text preparation: limit 20000 (lines 168-170). -/
def geminiPrepared (t : PStr) : PStr :=
  if 20000 < t.length then t.take 20000 ++ truncMarker else t

/-- `_summarize_with_qwen`, text preparation: limit 15000 (lines 210-212). -/
def qwenPrepared (t : PStr) : PStr :=
  if 15000 < t.length then t.take 15000 ++ truncMarker else t

/-- The part of the fixed summarization prompt template that precedes the
document text (the f-string in `_summarize_with_deepseek`, identical in the
Gemini and Qwen helpers). -/
def summaryPromptPre : PStr :=
  pstr "\n你是一个专业的金融分析师和文档总结专家。请仔细分析以下PDF文档内容，并以中文提供详细、结构化的总结。\n\n文档内容：\n"

/-- The part of the fixed summarization prompt template that follows the
document text. -/
def summaryPromptPost : PStr :=
  pstr "\n\n请按以下格式提供中文总结：\n## 主要观点\n- 核心论点\n- 投资建议\n- 风险因素\n\n## 核心财务数据\n- 目标价格/评级\n- 关键财务表现\n- 重要数字和指标\n\n## 关键洞察\n- 市场趋势分析\n- 行业前景\n- 竞争优势\n\n## 重要风险\n- 主要风险点\n- 不确定性因素\n\n请确保总结准确、全面，并且易于理解。如果文档是英文的，请将所有关键信息翻译成中文。\n"

/-- The full prompt `_summarize_with_deepseek` sends to the DeepSeek API. -/
def deepseekSummaryPrompt (t : PStr) : PStr :=
  summaryPromptPre ++ deepseekPrepared t ++ summaryPromptPost

/-- The full prompt `_summarize_with_gemini` sends to the Gemini API. -/
def geminiSummaryPrompt (t : PStr) : PStr :=
  summaryPromptPre ++ geminiPrepared t ++ summaryPromptPost

/-- The full prompt `_summarize_with_qwen` sends to the Qwen API. -/
def qwenSummaryPrompt (t : PStr) : PStr :=
  summaryPromptPre ++ qwenPrepared t ++ summaryPromptPost

/-- `_summarize_with_deepseek`: send the prompt, and on success return the
stripped message content (`response.choices[0].message.content.strip()`);
an API exception is re-raised (modelled as `.error`). -/
def summarizeWithDeepseek (env : LLMEnv) (t : PStr) : Except Unit PStr :=
  (env.deepseekResponse (deepseekSummaryPrompt t)).map pstrip

/-- `_summarize_with_gemini`: send the prompt, return `response.text.strip()`
on success, re-raise on failure. -/
def summarizeWithGemini (env : LLMEnv) (t : PStr) : Except Unit PStr :=
  (env.geminiResponse (geminiSummaryPrompt t)).map pstrip

/-- `_summarize_with_qwen`: send the prompt, return the stripped content on
success, re-raise on failure. -/
def summarizeWithQwen (env : LLMEnv) (t : PStr) : Except Unit PStr :=
  (env.qwenResponse (qwenSummaryPrompt t)).map pstrip

/-- The tail of `summarize_pdf_content` (lines 98-111): the Qwen block.  If
Qwen is available, invoke it; on success return `(summary, "Alibaba Qwen")`,
on failure return `("", "")`.  If Qwen is unavailable return `("", "")`.
The second component of the result is the list of providers invoked, in
order. -/
def qwenStage (env : LLMEnv) (t : PStr) : (PStr × PStr) × List PStr :=
  if env.qwenAvailable then
    match summarizeWithQwen env t with
    | .ok s => ((s, pstr "Alibaba Qwen"), [pstr "Alibaba Qwen"])
    | .error _ => ((pstr "", pstr ""), [pstr "Alibaba Qwen"])
  else ((pstr "", pstr ""), [])

/-- The Gemini block of `summarize_pdf_content` (lines 88-96): if Gemini is
available, invoke it; on success return `(summary, "Google Gemini")`, on a
raised exception fall through to the Qwen block. -/
def geminiStage (env : LLMEnv) (t : PStr) : (PStr × PStr) × List PStr :=
  if env.geminiAvailable then
    match summarizeWithGemini env t with
    | .ok s => ((s, pstr "Google Gemini"), [pstr "Google Gemini"])
    | .error _ =>
      let r := qwenStage env t
      (r.1, pstr "Google Gemini" :: r.2)
  else qwenStage env t

/-- The DeepSeek block of `summarize_pdf_content` (lines 78-86): if DeepSeek
is available, invoke it; on success return `(summary, "DeepSeek")`, on a
raised exception fall through to the Gemini block. -/
def deepseekStage (env : LLMEnv) (t : PStr) : (PStr × PStr) × List PStr :=
  if env.deepseekAvailable then
    match summarizeWithDeepseek env t with
    | .ok s => ((s, pstr "DeepSeek"), [pstr "DeepSeek"])
    | .error _ =>
      let r := geminiStage env t
      (r.1, pstr "DeepSeek" :: r.2)
  else geminiStage env t

/-- `LLMSummarizer.summarize_pdf_content`, instrumented with the ordered
list of providers that were actually invoked. -/
def summarizePdfContentTrace (env : LLMEnv) (t : PStr) :
    (PStr × PStr) × List PStr :=
  deepseekStage env t

/-- `LLMSummarizer.summarize_pdf_content`: the `(summary_text, llm_name)`
pair the method returns. -/
def summarizePdfContent (env : LLMEnv) (t : PStr) : PStr × PStr :=
  (summarizePdfContentTrace env t).1

/-- One `ProviderDescriptor` of the spec's provider chain: display name,
availability flag, and the outcome of invoking the provider. -/
abbrev ProviderDescr := PStr × Bool × Except Unit PStr

/-- The spec-side provider chain, written from the words of spec §4.2:
"For each provider in order: if its availability flag is false, skip;
otherwise invoke it … If it throws, log and continue to the next provider";
exhausting the chain yields the empty result.  The second component records
which providers were invoked. -/
def specProviderChain : List ProviderDescr → (PStr × PStr) × List PStr
  | [] => ((pstr "", pstr ""), [])
  | (n, avail, res) :: rest =>
    if avail then
      match res with
      | .ok s => ((s, n), [n])
      | .error _ =>
        let r := specProviderChain rest
        (r.1, n :: r.2)
    else specProviderChain rest

/-- The fixed, ordered descriptor list of the code's three providers. -/
def providerDescriptors (env : LLMEnv) (t : PStr) : List ProviderDescr :=
  [(pstr "DeepSeek", env.deepseekAvailable, summarizeWithDeepseek env t),
   (pstr "Google Gemini", env.geminiAvailable, summarizeWithGemini env t),
   (pstr "Alibaba Qwen", env.qwenAvailable, summarizeWithQwen env t)]

/- ===================================================================
   PDF processor (src/pdf_processor.py)
   =================================================================== -/

/-- A PDF page, as its sequence of extractable character positions in
reading order.  `some c` is a character still present on the page; `none`
is a position whose content a redaction has permanently removed. -/
abbrev PdfPage := List (Option Char)

/-- An exact-text occurrence of the pattern `pat` on page `p` starting at
position `i`: position `i + j` holds character `pat[j]` for every `j`. -/
def occursAt (p : PdfPage) (pat : PStr) (i : Nat) : Prop :=
  i + pat.length ≤ p.length ∧
    ∀ j, j < pat.length → p.getD (i + j) none = some (pat.getD j 'a')

instance (p : PdfPage) (pat : PStr) (i : Nat) : Decidable (occursAt p pat i) :=
  inferInstanceAs (Decidable (_ ∧ ∀ j, j < pat.length → _))

/-- `page.search_for(watermark_text)`: the starting positions of every
exact-text occurrence of the pattern on the page. -/
def searchFor (p : PdfPage) (pat : PStr) : List Nat :=
  (List.range p.length).filter fun i => decide (occursAt p pat i)

/-- Blank (set to `none`) every position `m` with `covered (k + m) = true`;
`k` is the index of the head of `p`. -/
def blankFrom (p : PdfPage) (covered : Nat → Bool) (k : Nat) : PdfPage :=
  match p with
  | [] => []
  | c :: rest => (if covered k then none else c) :: blankFrom rest covered (k + 1)

/-- Position `i` lies inside some found occurrence of `pat` on `p`. -/
def coveredB (p : PdfPage) (pat : PStr) (i : Nat) : Bool :=
  (searchFor p pat).any fun s => s ≤ i && i < s + pat.length

/-- Redact every found occurrence of `pat` on page `p`: the code's
`add_redact_annot(rect, fill=(1,1,1))` + `apply_redactions()` loop over
`page.search_for(watermark_text)`, which permanently removes the matched
characters.  (The extra +5/+2 geometric margin can only blank additional
neighbouring positions; it is not represented at the character level.) -/
def redactPat (p : PdfPage) (pat : PStr) : PdfPage :=
  blankFrom p (coveredB p pat) 0

/-- The per-page watermark loop of `_remove_watermarks_direct`
(lines 84-103): for each pattern in list order, search the current page; if
any instance is found, redact all of them and record `modified = True`. -/
def redactPageGo : List PStr → PdfPage → Bool → PdfPage × Bool
  | [], p, m => (p, m)
  | pat :: rest, p, m =>
    if searchFor p pat = [] then redactPageGo rest p m
    else redactPageGo rest (redactPat p pat) true

/-- Process one page against the whole watermark list. -/
def redactPagePatterns (p : PdfPage) (wl : List PStr) : PdfPage × Bool :=
  redactPageGo wl p false

/-- `PDFProcessor._remove_watermarks_direct`: process every page; if any
page was modified, return the processed document, else report no result
(`None`, line 118). -/
def removeWatermarksDirect (doc : List PdfPage) (wl : List PStr) :
    Option (List PdfPage) :=
  let results := doc.map fun pg => redactPagePatterns pg wl
  if results.any (fun r => r.2) then some (results.map fun r => r.1) else none

/-- A candidate text region produced by OpenCV's `cv2.boundingRect` over a
detected contour: `x`,`y` is the top-left corner, `w`,`h` the extent. -/
structure CvRect where
  x : Nat
  y : Nat
  w : Nat
  h : Nat
deriving DecidableEq

/-- A rasterized page: a pixel grid.  `pix c r` is the intensity of the
pixel in column `c`, row `r`; `img.shape[0]` is `height`, `img.shape[1]` is
`width`. -/
structure CvImage where
  width : Nat
  height : Nat
  pix : Nat → Nat → Nat

/-- `cv2.rectangle(img, (x0,y0), (x1,y1), (255,255,255), -1)`: fill the
rectangle (corner points included) with white. -/
def paintRect (im : CvImage) (x0 y0 x1 y1 : Nat) : CvImage :=
  { im with
    pix := fun c r =>
      if x0 ≤ c ∧ c ≤ x1 ∧ y0 ≤ r ∧ r ≤ y1 then 255 else im.pix c r }

/-- `PDFProcessor._is_watermark_region_multi(roi, watermark_list)`
(lines 203-209): accepts a region of-interest by its shape alone
(`roi.shape[0] < 20 and roi.shape[1] < 200`); the watermark list argument
is never consulted. -/
def isWatermarkRegionMulti (roiH roiW : Nat) (watermarkList : List PStr) :
    Bool :=
  roiH < 20 && roiW < 200

/-- One iteration of the contour loop of `_remove_watermarks_from_image`
(lines 178-195): apply the positional/size filter
(`x < img.shape[1] * 0.4 and h < 60 and h > 10 and w > 50 and w < 400`,
with `x < 0.4·W` rendered exactly as `5·x < 2·W`), extract the
region-of-interest `img[y:y+h, x:x+w]` (numpy slicing clips at the image
border, so its shape is `(min h (H-y), min w (W-x))`), test it with
`_is_watermark_region_multi`, and on acceptance fill
`(max(0,x-5), max(0,y-5))`–`(min(W,x+w+5), min(H,y+h+5))` with white
(truncated `Nat` subtraction is exactly `max 0 (· - 5)`). -/
def imageStep (wl : List PStr) (im : CvImage) (r : CvRect) : CvImage :=
  if 5 * r.x < 2 * im.width ∧ r.h < 60 ∧ 10 < r.h ∧ 50 < r.w ∧ r.w < 400 then
    if isWatermarkRegionMulti (min r.h (im.height - r.y))
        (min r.w (im.width - r.x)) wl then
      paintRect im (r.x - 5) (r.y - 5)
        (min im.width (r.x + r.w + 5)) (min im.height (r.y + r.h + 5))
    else im
  else im

/-- `PDFProcessor._remove_watermarks_from_image`: process every detected
candidate region of one page image, in detection order.  The contour list
stands for the output of the threshold/dilate/findContours pipeline, which
depends only on the image. -/
def removeWatermarksFromImage (im : CvImage) (contours : List CvRect)
    (wl : List PStr) : CvImage :=
  contours.foldl (imageStep wl) im

/-- `PDFProcessor._remove_watermarks_via_images` (lines 124-159): rasterize
each page and run the heuristic eraser on it.  Each page is given together
with its detected contour rectangles. -/
def removeWatermarksViaImages (pages : List (CvImage × List CvRect))
    (wl : List PStr) : List CvImage :=
  pages.map fun pg => removeWatermarksFromImage pg.1 pg.2 wl

/-- `PDFProcessor.remove_watermarks` (lines 56-73): try the direct path; if
it reports a result, return it (`Sum.inl`); otherwise fall back to the
image-based path (`Sum.inr`).  `raster` models `convert_from_path` plus
contour detection: it turns the document into page images with their
candidate regions. -/
def removeWatermarks (raster : List PdfPage → List (CvImage × List CvRect))
    (doc : List PdfPage) (wl : List PStr) : Sum (List PdfPage) (List CvImage) :=
  match removeWatermarksDirect doc wl with
  | some clean => Sum.inl clean
  | none => Sum.inr (removeWatermarksViaImages (raster doc) wl)

/- ===================================================================
   WeChat summarizer (src/wechat_summarizer.py)
   =================================================================== -/

/-- At the head of `s`, try to match the regex `\*\*([^*]+)\*\*`: two
asterisks, a nonempty run of non-asterisk characters, two asterisks.  On a
match, return the captured group and the remainder of the string after the
match. -/
def tryMatchDouble (s : PStr) : Option (PStr × PStr) :=
  match s with
  | '*' :: '*' :: r2 =>
    let t := r2.takeWhile fun c => c ≠ '*'
    if t = [] then none
    else
      match r2.drop t.length with
      | '*' :: '*' :: rest => some (t, rest)
      | _ => none
  | _ => none


theorem tryMatchDouble_shrink {s t rest : PStr}
    (h : tryMatchDouble s = some (t, rest)) : rest.length < s.length := by
  unfold tryMatchDouble at h
  split at h
  next r2 =>
    dsimp only at h
    split at h
    · exact absurd h (by simp)
    · split at h
      next heq =>
        obtain ⟨rfl, rfl⟩ : _ ∧ _ := by
          simpa [Prod.ext_iff] using h
        have hlen := congrArg List.length heq
        have hdrop : (r2.drop (r2.takeWhile fun c => c ≠ '*').length).length ≤
            r2.length := by
          simp
        simp at hlen
        simp only [List.length_cons]
        omega
      next => exact absurd h (by simp)
  next => exact absurd h (by simp)

/-- At the head of `s`, try to match the regex `\*([^*]+)\*`: one asterisk,
a nonempty run of non-asterisk characters, one asterisk. -/
def tryMatchSingle (s : PStr) : Option (PStr × PStr) :=
  match s with
  | '*' :: r1 =>
    let t := r1.takeWhile fun c => c ≠ '*'
    if t = [] then none
    else
      match r1.drop t.length with
      | '*' :: rest => some (t, rest)
      | _ => none
  | _ => none

theorem tryMatchSingle_shrink {s t rest : PStr}
    (h : tryMatchSingle s = some (t, rest)) : rest.length < s.length := by
  unfold tryMatchSingle at h
  split at h
  next r1 =>
    dsimp only at h
    split at h
    · exact absurd h (by simp)
    · split at h
      next heq =>
        obtain ⟨rfl, rfl⟩ : _ ∧ _ := by
          simpa [Prod.ext_iff] using h
        have hlen := congrArg List.length heq
        have hdrop : (r1.drop (r1.takeWhile fun c => c ≠ '*').length).length ≤
            r1.length := by
          simp
        simp at hlen
        simp only [List.length_cons]
        omega
      next => exact absurd h (by simp)
  next => exact absurd h (by simp)

/-- The scan of `re.sub(r'\*\*([^*]+)\*\*', r'\1', summary)`, structured
with a step-count bound so the recursion is structural: at each position
either replace a `**…**` group by its contents and continue after it, or
keep the character and move on.  By `tryMatchDouble_shrink` every step
strictly shrinks the string, so with an initial bound of `s.length` the
`0` case is never reached on a nonempty string. -/
def subDoubleStarGo : Nat → PStr → PStr
  | _, [] => []
  | 0, s => s
  | fuel + 1, c :: cs =>
    match tryMatchDouble (c :: cs) with
    | some (t, rest) => t ++ subDoubleStarGo fuel rest
    | none => c :: subDoubleStarGo fuel cs

/-- `re.sub(r'\*\*([^*]+)\*\*', r'\1', summary)`. -/
def subDoubleStar (s : PStr) : PStr := subDoubleStarGo s.length s

/-- The scan of `re.sub(r'\*([^*]+)\*', r'\1', summary)` (same structure as
`subDoubleStarGo`). -/
def subSingleStarGo : Nat → PStr → PStr
  | _, [] => []
  | 0, s => s
  | fuel + 1, c :: cs =>
    match tryMatchSingle (c :: cs) with
    | some (t, rest) => t ++ subSingleStarGo fuel rest
    | none => c :: subSingleStarGo fuel cs

/-- `re.sub(r'\*([^*]+)\*', r'\1', summary)`. -/
def subSingleStar (s : PStr) : PStr := subSingleStarGo s.length s

/-- The cleanup `_format_wechat_output` performs before the length check:
`summary.strip()` followed by the two markdown-removal substitutions. -/
def wechatClean (summary : PStr) : PStr :=
  subSingleStar (subDoubleStar (pstrip summary))

/-- Python `summary.split('。')` for the one-character separator `'。'`. -/
def splitOnChar (sep : Char) : PStr → List PStr
  | [] => [[]]
  | c :: cs =>
    if c = sep then [] :: splitOnChar sep cs
    else
      match splitOnChar sep cs with
      | h :: t => (c :: h) :: t
      | [] => [[c]]

/-- The sentence-accumulation loop of `_format_wechat_output`
(lines 151-156): append `sentence + "。"` while the total stays within 395
characters; `break` at the first sentence that does not fit. -/
def truncLoop : List PStr → PStr → PStr
  | [], acc => acc
  | sent :: rest, acc =>
    if (acc ++ sent ++ pstr "。").length ≤ 395 then
      truncLoop rest (acc ++ sent ++ pstr "。")
    else acc

/-- `WeChatSummarizer._format_wechat_output` (lines 138-162): strip, remove
markdown emphasis, and if the result exceeds 400 characters truncate it at
a sentence boundary within 395 characters, or hard-truncate to 395
characters plus `"..."` when no sentence fits.  The `filename` parameter of
the Python method is unused by it. -/
def formatWechatOutput (summary filename : PStr) : PStr :=
  if 400 < (wechatClean summary).length then
    if truncLoop (splitOnChar '。' (wechatClean summary)) [] ≠ [] then
      truncLoop (splitOnChar '。' (wechatClean summary)) []
    else (wechatClean summary).take 395 ++ pstr "..."
  else wechatClean summary

/-- `_create_wechat_prompt` text preparation: truncate the raw text to
15000 characters and append the truncation marker (lines 66-68). -/
def wechatPrepared (t : PStr) : PStr :=
  if 15000 < t.length then t.take 15000 ++ truncMarker else t

/-- The fixed WeChat prompt template of `_create_wechat_prompt`: everything
of the f-string before the `文档: {filename}` slot. -/
def wechatPromptPre : PStr :=
  pstr "\n你是一个专业的金融分析师，需要为微信群分享创建内容详实、论据充分的研报总结。\n\n**处理流程：**\n1.  **识别来源与对象**：首先准确识别研报的**发布机构**（如高盛、摩根大通）及其主要分析的**公司或行业**。\n2.  **提炼核心观点与结论**：客观提炼报告的核心判断，包括但不限于：行业趋势预测、公司前景展望、投资评级（增持/买入/中性等）及目标价。\n3.  **详实总结支撑论据**：这是关键。必须深入提取支持其核心结论的**2-3个主要逻辑和关键数据**作为支撑论点，要求具体、详实。\n4.  **聚焦关键数据**：突出呈现最重要的具体数据，如增长率、市场份额、规模预测、估值倍数、订单情况等。\n5.  **严格规避内容**：删除所有风险提示、免责声明、主观臆断及冗余背景信息。\n\n**输出要求：**\n-   **语言**：纯中文，行文专业且平实，适合金融从业者阅读。\n-   **字数**：**200至400字之间**，确保内容充实且不超限。\n-   **内容**：必须严格基于研报原文，客观呈现其观点与论据。\n\n**输出格式：**\n[机构名称]发布关于[公司名称/行业名称]的最新研究。[其主要观点/认为]：[用1-2句话概括核心判断或趋势预测]。\n**核心支撑论据包括**：\n1.  [第一个详细支撑论点，包含具体数据或事实]；\n2.  [第二个详细支撑论点，包含具体数据或事实]；\n3.  [（可选）第三个详细支撑论点，包含具体数据或事实]。\n(基于上述分析，[机构名称]维持/给予[股票代码]\"[评级]\"评级及目标价[目标价]。)\n\n**参考案例：**\n高盛发布关于中国半导体行业的最新研究。其认为中国半导体行业正迎来新一轮资本支出扩张与技术升级。\n**核心支撑论据包括**：\n1.  资本支出大幅上调：将2025-2030年行业资本支出预测上调至430-460亿美元，投资重点更多转向存储器和先进制程节点；\n2.  本土厂商深度受益：预计本土半导体生产设备（SPE）供应商的市场份额将从2025年的26%显著提升至2030年的36%；\n3.  光刻机需求庞大：提出到2035年，中国需新增超过2261台光刻机才能满足全部芯片需求，揭示了巨大的设备市场空间。\n高盛看好中国半导体发展的核心逻辑还包括庞大的本土市场、技术生态持续成熟及生成式AI推动供应链发展，并具体看好半导体设备（SPE）及先进制程相关子行业（IP、设计、代工、封装等）。\n\n请根据上述规则，对以下文档进行分析和总结：\n文档: "

/-- `WeChatSummarizer._create_wechat_prompt` (lines 63-105): the prompt is
the fixed template with the filename and the (possibly truncated) document
text interpolated at its end. -/
def createWechatPrompt (pdfText filename : PStr) : PStr :=
  wechatPromptPre ++ filename ++ pstr "\n内容: " ++ wechatPrepared pdfText ++
    pstr "\n"

/-- Python `str.split()` with no argument: split on whitespace runs, with
no empty words. -/
def pyWords (s : PStr) : List PStr :=
  (s.splitOnP isPySpace).filter fun w => w ≠ []

/-- Python `sep.join(xs)`. -/
def pyJoin (sep : PStr) (xs : List PStr) : PStr := List.intercalate sep xs

/-- The keyword table of `_extract_company_name`. -/
def companyKeywords : List PStr :=
  [pstr "股份", pstr "公司", pstr "科技", pstr "集团"]

/-- The per-line scan of `_extract_company_name`. -/
def extractCompanyGo : List PStr → PStr
  | [] => pstr "目标公司"
  | l :: rest =>
    if companyKeywords.any (fun kw => hasSub kw l) then
      match (pyWords l).find? (fun w => companyKeywords.any fun kw => hasSub kw w) with
      | some w => w.take 10
      | none => extractCompanyGo rest
    else extractCompanyGo rest

/-- `WeChatSummarizer._extract_company_name` (lines 185-194): scan the first
10 lines for a company-suffix keyword; return the first word containing one,
clipped to 10 characters; default `"目标公司"`. -/
def extractCompanyName (ls : List PStr) : PStr :=
  extractCompanyGo (ls.take 10)

/-- The `rating_keywords` table of `_extract_rating`, in Python 3.7+ dict
insertion order. -/
def ratingKeywordPairs : List (PStr × PStr) :=
  [(pstr "buy", pstr "买入"), (pstr "overweight", pstr "增持"),
   (pstr "hold", pstr "持有"), (pstr "sell", pstr "卖出"),
   (pstr "underweight", pstr "减持"), (pstr "买入", pstr "买入"),
   (pstr "增持", pstr "增持"), (pstr "持有", pstr "持有")]

/-- `WeChatSummarizer._extract_rating` (lines 196-208): join the first 20
lines, lowercase, and return the mapped rating of the first keyword found,
else the empty string. -/
def extractRating (ls : List PStr) : PStr :=
  let text := pyLower (pyJoin (pstr " ") (ls.take 20))
  match ratingKeywordPairs.find? (fun p => hasSub p.1 text) with
  | some p => p.2
  | none => pstr ""

/-- The regex fragment `[¥$]?\d+\.?\d*` at the head of `s` (all quantifiers
greedy; digits are ASCII): on a match, return the captured text and the
rest of the string. -/
def matchPriceCore (s : PStr) : Option (PStr × PStr) :=
  let symSplit : PStr × PStr :=
    match s with
    | c :: cs => if c = '¥' ∨ c = '$' then ([c], cs) else ([], c :: cs)
    | [] => ([], [])
  let ds := symSplit.2.takeWhile fun c => c.isDigit
  if ds = [] then none
  else
    match symSplit.2.drop ds.length with
    | '.' :: s3 =>
      let ds2 := s3.takeWhile fun c => c.isDigit
      some (symSplit.1 ++ ds ++ '.' :: ds2, s3.drop ds2.length)
    | other => some (symSplit.1 ++ ds, other)

/-- The regex fragment `[：:]?\s*`: optionally consume one colon, then any
whitespace. -/
def matchColonSpaces (s : PStr) : PStr :=
  let s1 : PStr :=
    match s with
    | c :: cs => if c = '：' ∨ c = ':' then cs else c :: cs
    | [] => []
  s1.dropWhile isPySpace

/-- Price pattern 1, `目标价[：:]?\s*([¥$]?\d+\.?\d*)`, anchored at the head
of `s`. -/
def matchPrice1At (s : PStr) : Option PStr :=
  if (pstr "目标价").isPrefixOf s then
    (matchPriceCore (matchColonSpaces (s.drop 3))).map fun r => r.1
  else none

/-- Price pattern 2, `target price[：:]?\s*([¥$]?\d+\.?\d*)` with
`re.IGNORECASE`, anchored at the head of `s`. -/
def matchPrice2At (s : PStr) : Option PStr :=
  if pyLower (s.take 12) = pstr "target price" then
    (matchPriceCore (matchColonSpaces (s.drop 12))).map fun r => r.1
  else none

/-- Price pattern 3, `([¥$]?\d+\.?\d*)\s*元`, anchored at the head of `s`. -/
def matchPrice3At (s : PStr) : Option PStr :=
  match matchPriceCore s with
  | some (g, rest) =>
    if (pstr "元").isPrefixOf (rest.dropWhile isPySpace) then some g else none
  | none => none

/-- Price pattern 4, `([¥$]?\d+\.?\d*)\s*港元`, anchored at the head of
`s`. -/
def matchPrice4At (s : PStr) : Option PStr :=
  match matchPriceCore s with
  | some (g, rest) =>
    if (pstr "港元").isPrefixOf (rest.dropWhile isPySpace) then some g else none
  | none => none

/-- `re.search`: return the anchored match at the leftmost position where
one exists. -/
def reSearchPrice (matchAt : PStr → Option PStr) : PStr → Option PStr
  | [] => matchAt []
  | c :: cs =>
    match matchAt (c :: cs) with
    | some g => some g
    | none => reSearchPrice matchAt cs

/-- `WeChatSummarizer._extract_target_price` (lines 210-227): join the first
20 lines and try the four price regexes in order; return the first captured
group, else the empty string. -/
def extractTargetPrice (ls : List PStr) : PStr :=
  let text := pyJoin (pstr " ") (ls.take 20)
  match reSearchPrice matchPrice1At text with
  | some g => g
  | none =>
    match reSearchPrice matchPrice2At text with
    | some g => g
    | none =>
      match reSearchPrice matchPrice3At text with
      | some g => g
      | none =>
        match reSearchPrice matchPrice4At text with
        | some g => g
        | none => pstr ""

/-- The `sources` table of `_extract_source`, in dict insertion order. -/
def sourcePairs : List (PStr × PStr) :=
  [(pstr "jpmorgan", pstr "摩根大通"), (pstr "jp", pstr "摩根大通"),
   (pstr "jpm", pstr "摩根大通"), (pstr "goldman", pstr "高盛"),
   (pstr "gs", pstr "高盛"), (pstr "morgan", pstr "摩根士丹利"),
   (pstr "ms", pstr "摩根士丹利"), (pstr "citi", pstr "花旗"),
   (pstr "citigroup", pstr "花旗"), (pstr "ubs", pstr "瑞银"),
   (pstr "credit", pstr "瑞信"), (pstr "bofa", pstr "美银"),
   (pstr "bank of america", pstr "美银")]

/-- `WeChatSummarizer._extract_source` (lines 229-245): map the lowercased
filename through the institution table; default `"研究机构"`. -/
def extractSource (filename : PStr) : PStr :=
  match sourcePairs.find? (fun p => hasSub p.1 (pyLower filename)) with
  | some p => p.2
  | none => pstr "研究机构"

/-- `WeChatSummarizer._fallback_summary` (lines 164-183): a deterministic
keyword-based summary, clipped to 400 characters. -/
def fallbackSummary (pdfText filename : PStr) : PStr :=
  let ls := splitOnChar '\n' pdfText
  let s1 := extractSource filename ++ pstr "观点: " ++ extractCompanyName ls ++
    pstr "\n"
  let s2 := if extractRating ls ≠ [] then s1 ++ extractRating ls ++ pstr "评级"
    else s1
  let s3 := if extractTargetPrice ls ≠ [] then
      s2 ++ pstr "，目标价" ++ extractTargetPrice ls
    else s2
  (s3 ++ pstr "\n📄 来源: " ++ filename).take 400

/-- The Qwen block of `generate_wechat_summary` (lines 49-55) and the final
fallback (line 58). -/
def wechatQwenStage (env : LLMEnv) (pdfText filename prompt : PStr) : PStr :=
  if env.qwenAvailable then
    match (env.qwenResponse prompt).map pstrip with
    | .ok s => formatWechatOutput s filename
    | .error _ => fallbackSummary pdfText filename
  else fallbackSummary pdfText filename

/-- The Gemini block of `generate_wechat_summary` (lines 41-47). -/
def wechatGeminiStage (env : LLMEnv) (pdfText filename prompt : PStr) : PStr :=
  if env.geminiAvailable then
    match (env.geminiResponse prompt).map pstrip with
    | .ok s => formatWechatOutput s filename
    | .error _ => wechatQwenStage env pdfText filename prompt
  else wechatQwenStage env pdfText filename prompt

/-- `WeChatSummarizer.generate_wechat_summary` (lines 17-61): build the
WeChat prompt, try DeepSeek, Gemini, then Qwen — formatting any successful
response with `_format_wechat_output` — and fall back to the deterministic
`_fallback_summary` when every provider is unavailable or throws. -/
def generateWechatSummary (env : LLMEnv) (pdfText filename : PStr) : PStr :=
  let prompt := createWechatPrompt pdfText filename
  if env.deepseekAvailable then
    match (env.deepseekResponse prompt).map pstrip with
    | .ok s => formatWechatOutput s filename
    | .error _ => wechatGeminiStage env pdfText filename prompt
  else wechatGeminiStage env pdfText filename prompt

/-- The part of `s` before the first occurrence of `sep`
(Python `s.split(sep)[0]`; the whole of `s` when `sep` does not occur). -/
def beforeFirst (sep : PStr) : PStr → PStr
  | [] => []
  | c :: cs =>
    if sep.isPrefixOf (c :: cs) then [] else c :: beforeFirst sep cs

/-- The institution names inserted into the `sources` set by
`combine_summaries` (lines 260-264), in insertion order. -/
def combineSourcesOf (summaries : List PStr) : List PStr :=
  summaries.filterMap fun s =>
    if hasSub (pstr "观点:") s then
      some (pstrip (beforeFirst (pstr "观点:") s))
    else none

/-- The `ratings` list built by `combine_summaries` (lines 266-272): per
summary, the first rating keyword of the fixed `买入`/`增持`/`持有` check
chain that occurs in it. -/
def ratingsOf (summaries : List PStr) : List PStr :=
  summaries.filterMap fun s =>
    if hasSub (pstr "买入") s then some (pstr "买入")
    else if hasSub (pstr "增持") s then some (pstr "增持")
    else if hasSub (pstr "持有") s then some (pstr "持有")
    else none

/-- The scan of Python's builtin `max(xs, key=key)`: keep the current best,
replacing it only on a strictly greater key — so the first maximal element
in iteration order wins. -/
def pyMaxGo (key : PStr → Nat) (best : PStr) : List PStr → PStr
  | [] => best
  | y :: ys => if key best < key y then pyMaxGo key y ys else pyMaxGo key best ys

/-- Python `max(xs, key=key)` (the `[]` case is unreachable: the code guards
it with `if ratings:`). -/
def pyMax (key : PStr → Nat) : List PStr → PStr
  | [] => []
  | x :: xs => pyMaxGo key x xs

/-- The consensus rating of `combine_summaries` (lines 280-284):
`max(set(ratings), key=ratings.count)` when any rating was collected, else
`"关注"`.  `ratingOrder` supplies the iteration order of the Python set
`set(ratings)` — an unspecified, hash-dependent enumeration of the distinct
collected ratings. -/
def consensusRating (ratingOrder : List PStr → List PStr)
    (summaries : List PStr) : PStr :=
  if ratingsOf summaries = [] then pstr "关注"
  else pyMax (fun r => (ratingsOf summaries).count r)
    (ratingOrder (ratingsOf summaries))

/-- `WeChatSummarizer.combine_summaries` (lines 247-291).  `srcOrder` and
`ratingOrder` supply the iteration orders of the Python sets `sources` and
`set(ratings)` (applied to the insertion-order lists of inserted values);
Python leaves these orders unspecified. -/
def combineSummaries (srcOrder ratingOrder : List PStr → List PStr)
    (summaries : List PStr) : PStr :=
  match summaries with
  | [] => pstr "未找到有效分析结果"
  | [x] => x
  | _ =>
    let srcs := combineSourcesOf summaries
    let sourceText :=
      if srcs = [] then pstr "多家机构"
      else pyJoin (pstr "、") ((srcOrder srcs).take 2)
    (sourceText ++ pstr "综合观点:\n一致" ++
      consensusRating ratingOrder summaries ++ pstr "评级\n基于" ++
      (toString summaries.length).data ++
      pstr "份研报的综合分析\n详细观点请见上方各机构分析").take 400

/- ===================================================================
   Test fixtures (concrete environments and inputs used by witnesses
   and counterexamples)
   =================================================================== -/

/-- An environment whose Primary raises and whose Secondary succeeds. -/
def envPrimaryFails : LLMEnv :=
  ⟨true, true, true, fun _ => .error (), fun _ => .ok (pstr " 核心观点 "),
   fun _ => .ok (pstr "q")⟩

/-- An environment in which every provider is available and every remote
call raises. -/
def envAllRaise : LLMEnv :=
  ⟨true, true, true, fun _ => .error (), fun _ => .error (),
   fun _ => .error ()⟩

/-- An environment in which no provider is available. -/
def envNoneAvail : LLMEnv :=
  ⟨false, false, false, fun _ => .error (), fun _ => .error (),
   fun _ => .error ()⟩

/-- An environment whose Primary succeeds with an empty response. -/
def envEmptyOk : LLMEnv :=
  ⟨true, false, false, fun _ => .ok [], fun _ => .error (),
   fun _ => .error ()⟩

/-- A raw text of 25000 characters. -/
def t25k : PStr := List.replicate 25000 'a'

/-- The condition, on one summarization call, that every provider response
that succeeds is non-empty after stripping (spec §4.2 assumes a successful
invocation "returns non-empty text"; the code does not enforce this). -/
def nonEmptySuccess (env : LLMEnv) (t : PStr) : Bool :=
  (match env.deepseekResponse (deepseekSummaryPrompt t) with
   | .ok s => !(pstrip s).isEmpty
   | .error _ => true) &&
  (match env.geminiResponse (geminiSummaryPrompt t) with
   | .ok s => !(pstrip s).isEmpty
   | .error _ => true) &&
  (match env.qwenResponse (qwenSummaryPrompt t) with
   | .ok s => !(pstrip s).isEmpty
   | .error _ => true)

/- ===================================================================
   Claims C1, C2, C3, C9 — the provider chain
   =================================================================== -/

/-- C1: `summarize_pdf_content` attempts the providers in the fixed order
DeepSeek, Google Gemini, Alibaba Qwen, skipping providers whose
availability flag is false, and returns the first successful invocation
together with that provider's name (first conjunct: the code equals the
spec-side ordered chain, for every environment and input); in particular,
when Primary is available but raises and Secondary is available and
succeeds, the result is Secondary's (stripped) text paired with
"Google Gemini", Primary is invoked exactly once, and Tertiary is not
invoked at all (second conjunct). -/
theorem claim_C1_provider_chain :
    (∀ env t, summarizePdfContentTrace env t =
      specProviderChain (providerDescriptors env t)) ∧
    (∀ env t s, env.deepseekAvailable = true →
      env.deepseekResponse (deepseekSummaryPrompt t) = .error () →
      env.geminiAvailable = true →
      env.geminiResponse (geminiSummaryPrompt t) = .ok s →
      summarizePdfContent env t = (pstrip s, pstr "Google Gemini") ∧
      (summarizePdfContentTrace env t).2 =
        [pstr "DeepSeek", pstr "Google Gemini"] ∧
      (summarizePdfContentTrace env t).2.count (pstr "DeepSeek") = 1 ∧
      (summarizePdfContentTrace env t).2.count (pstr "Alibaba Qwen") = 0) := by
  constructor
  · intro env t
    rcases hds : summarizeWithDeepseek env t with e | s1 <;>
    rcases hgm : summarizeWithGemini env t with e | s2 <;>
    rcases hqw : summarizeWithQwen env t with e | s3 <;>
    cases hd : env.deepseekAvailable <;>
    cases hg : env.geminiAvailable <;>
    cases hq : env.qwenAvailable <;>
    simp [summarizePdfContentTrace, deepseekStage, geminiStage, qwenStage,
      providerDescriptors, specProviderChain, hds, hgm, hqw, hd, hg, hq]
  · intro env t s hda hdr hga hgr
    have hds : summarizeWithDeepseek env t = .error () := by
      simp [summarizeWithDeepseek, hdr, Except.map]
    have hgm : summarizeWithGemini env t = .ok (pstrip s) := by
      simp [summarizeWithGemini, hgr, Except.map]
    refine ⟨?_, ?_, ?_, ?_⟩ <;>
      simp [summarizePdfContent, summarizePdfContentTrace, deepseekStage,
        geminiStage, hds, hgm, hda, hga] <;> decide

/-- Witness for C1: a concrete run in which DeepSeek raises and Gemini
answers. -/
theorem claim_C1_provider_chain_witness :
    envPrimaryFails.deepseekAvailable = true ∧
    envPrimaryFails.deepseekResponse (deepseekSummaryPrompt (pstr "报告")) =
      .error () ∧
    envPrimaryFails.geminiAvailable = true ∧
    envPrimaryFails.geminiResponse (geminiSummaryPrompt (pstr "报告")) =
      .ok (pstr " 核心观点 ") ∧
    summarizePdfContent envPrimaryFails (pstr "报告") =
      (pstrip (pstr " 核心观点 "), pstr "Google Gemini") ∧
    (summarizePdfContentTrace envPrimaryFails (pstr "报告")).2.count
      (pstr "DeepSeek") = 1 ∧
    (summarizePdfContentTrace envPrimaryFails (pstr "报告")).2.count
      (pstr "Alibaba Qwen") = 0 :=
  ⟨rfl, rfl, rfl, rfl,
    (claim_C1_provider_chain.2 envPrimaryFails (pstr "报告") (pstr " 核心观点 ")
      rfl rfl rfl rfl).1,
    (claim_C1_provider_chain.2 envPrimaryFails (pstr "报告") (pstr " 核心观点 ")
      rfl rfl rfl rfl).2.2.1,
    (claim_C1_provider_chain.2 envPrimaryFails (pstr "报告") (pstr " 核心观点 ")
      rfl rfl rfl rfl).2.2.2⟩

/-- C2: if every provider is unavailable, or every available provider's
invocation raises, `summarize_pdf_content` returns the empty result
`("", "")` (and, the model being total, does not raise). -/
theorem claim_C2_all_fail_empty_result :
    ∀ env t,
    (env.deepseekAvailable = true →
      env.deepseekResponse (deepseekSummaryPrompt t) = .error ()) →
    (env.geminiAvailable = true →
      env.geminiResponse (geminiSummaryPrompt t) = .error ()) →
    (env.qwenAvailable = true →
      env.qwenResponse (qwenSummaryPrompt t) = .error ()) →
    summarizePdfContent env t = (pstr "", pstr "") := by
  intro env t hd hg hq
  cases hda : env.deepseekAvailable <;> cases hga : env.geminiAvailable <;>
  cases hqa : env.qwenAvailable <;>
  simp_all [summarizePdfContent, summarizePdfContentTrace, deepseekStage,
    geminiStage, qwenStage, summarizeWithDeepseek, summarizeWithGemini,
    summarizeWithQwen, Except.map]

/-- Witness for C2: every provider available, every call raising. -/
theorem claim_C2_all_fail_empty_result_witness :
    envAllRaise.deepseekResponse (deepseekSummaryPrompt (pstr "x")) =
      .error () ∧
    envAllRaise.geminiResponse (geminiSummaryPrompt (pstr "x")) = .error () ∧
    envAllRaise.qwenResponse (qwenSummaryPrompt (pstr "x")) = .error () ∧
    summarizePdfContent envAllRaise (pstr "x") = (pstr "", pstr "") :=
  ⟨rfl, rfl, rfl,
    claim_C2_all_fail_empty_result envAllRaise (pstr "x")
      (fun _ => rfl) (fun _ => rfl) (fun _ => rfl)⟩

/-- C3: when the raw text exceeds a provider's fixed limit (20000 for
DeepSeek, 20000 for Gemini, 15000 for Qwen), the document portion of the
prompt sent to that provider is exactly the first limit-many characters of
the raw text followed by the truncation marker. -/
theorem claim_C3_truncation :
    ∀ t : PStr,
    (20000 < t.length → deepseekSummaryPrompt t =
      summaryPromptPre ++ (t.take 20000 ++ truncMarker) ++ summaryPromptPost) ∧
    (20000 < t.length → geminiSummaryPrompt t =
      summaryPromptPre ++ (t.take 20000 ++ truncMarker) ++ summaryPromptPost) ∧
    (15000 < t.length → qwenSummaryPrompt t =
      summaryPromptPre ++ (t.take 15000 ++ truncMarker) ++ summaryPromptPost) := by
  intro t
  refine ⟨fun h => ?_, fun h => ?_, fun h => ?_⟩ <;>
    simp [deepseekSummaryPrompt, deepseekPrepared, geminiSummaryPrompt,
      geminiPrepared, qwenSummaryPrompt, qwenPrepared, h]

/-- Witness for C3: a raw text of exactly 25000 characters is cut to its
first 20000 characters plus the marker for Primary (and analogously for
the other providers). -/
theorem claim_C3_truncation_witness :
    20000 < t25k.length ∧ 15000 < t25k.length ∧
    deepseekSummaryPrompt t25k =
      summaryPromptPre ++ (t25k.take 20000 ++ truncMarker) ++ summaryPromptPost ∧
    geminiSummaryPrompt t25k =
      summaryPromptPre ++ (t25k.take 20000 ++ truncMarker) ++ summaryPromptPost ∧
    qwenSummaryPrompt t25k =
      summaryPromptPre ++ (t25k.take 15000 ++ truncMarker) ++ summaryPromptPost :=
  ⟨by norm_num [t25k], by norm_num [t25k],
    (claim_C3_truncation t25k).1 (by norm_num [t25k]),
    (claim_C3_truncation t25k).2.1 (by norm_num [t25k]),
    (claim_C3_truncation t25k).2.2 (by norm_num [t25k])⟩

/-- C9, counterexample: the claim "empty summary text is only ever paired
with an empty provider name" fails on the code: a provider whose invocation
succeeds but returns empty (or all-whitespace) content yields `("",
"DeepSeek")` — an empty text paired with a provider name. -/
theorem claim_C9_counterexample :
    summarizePdfContent envEmptyOk (pstr "text") = (pstr "", pstr "DeepSeek") ∧
    pstr "DeepSeek" ≠ pstr "" := by
  constructor
  · rfl
  · decide

/-- C9, amended: if additionally every successful provider response is
non-empty after stripping (which spec §4.2 assumes of a "success"), then an
empty returned summary text does imply an empty provider name, i.e. the
empty text occurs only in the total-failure case. -/
theorem claim_C9_amended :
    ∀ env t, nonEmptySuccess env t = true →
    (summarizePdfContent env t).1 = pstr "" →
    (summarizePdfContent env t).2 = pstr "" := by
  intro env t hne hempty
  simp only [nonEmptySuccess, Bool.and_eq_true] at hne
  obtain ⟨⟨hd, hg⟩, hq⟩ := hne
  cases hda : env.deepseekAvailable <;> cases hga : env.geminiAvailable <;>
  cases hqa : env.qwenAvailable <;>
  rcases hdr : env.deepseekResponse (deepseekSummaryPrompt t) with e | sd <;>
  rcases hgr : env.geminiResponse (geminiSummaryPrompt t) with e | sg <;>
  rcases hqr : env.qwenResponse (qwenSummaryPrompt t) with e | sq <;>
  simp [hdr, hgr, hqr] at hd hg hq <;>
  simp_all [summarizePdfContent, summarizePdfContentTrace, deepseekStage,
    geminiStage, qwenStage, summarizeWithDeepseek, summarizeWithGemini,
    summarizeWithQwen, hda, hga, hqa, hdr, hgr, hqr, Except.map, pstr,
    List.isEmpty_iff]

/-- Witness for C9's amended claim: with no provider available the result
is `("", "")`. -/
theorem claim_C9_amended_witness :
    nonEmptySuccess envNoneAvail (pstr "t") = true ∧
    (summarizePdfContent envNoneAvail (pstr "t")).1 = pstr "" ∧
    (summarizePdfContent envNoneAvail (pstr "t")).2 = pstr "" :=
  ⟨rfl, rfl, claim_C9_amended envNoneAvail (pstr "t") rfl rfl⟩

/- ===================================================================
   Lemmas about the direct redaction path
   =================================================================== -/

/-- A page with no extractable occurrence of `pat` anywhere. -/
def patFree (p : PdfPage) (pat : PStr) : Prop := ∀ i, ¬ occursAt p pat i

theorem length_blankFrom (p : PdfPage) (c : Nat → Bool) (k : Nat) :
    (blankFrom p c k).length = p.length := by
  induction p generalizing k with
  | nil => rfl
  | cons a rest ih => simp [blankFrom, ih]

theorem getD_blankFrom (p : PdfPage) (c : Nat → Bool) (k m : Nat) :
    (blankFrom p c k).getD m none =
      if c (k + m) then none else p.getD m none := by
  induction p generalizing k m with
  | nil => simp [blankFrom]
  | cons a rest ih =>
    cases m with
    | zero => simp [blankFrom]
    | succ m' =>
      have harith : k + 1 + m' = k + (m' + 1) := by omega
      simp only [blankFrom, List.getD_cons_succ]
      rw [ih (k + 1) m', harith]

/-- Blanking positions never creates an occurrence: any occurrence on the
blanked page was already an occurrence on the original page. -/
theorem occursAt_blankFrom {p : PdfPage} {c : Nat → Bool} {pat : PStr}
    {i : Nat} (h : occursAt (blankFrom p c 0) pat i) : occursAt p pat i := by
  obtain ⟨hlen, hall⟩ := h
  refine ⟨by rw [length_blankFrom] at hlen; exact hlen, fun j hj => ?_⟩
  have := hall j hj
  rw [getD_blankFrom] at this
  simp only [Nat.zero_add] at this
  split at this
  · exact absurd this (by simp)
  · exact this

theorem mem_searchFor {p : PdfPage} {pat : PStr} {i : Nat} :
    i ∈ searchFor p pat ↔ i < p.length ∧ occursAt p pat i := by
  simp [searchFor, List.mem_filter, List.mem_range]

theorem occursAt_mem_searchFor {p : PdfPage} {pat : PStr} {i : Nat}
    (hpat : pat ≠ []) (h : occursAt p pat i) : i ∈ searchFor p pat := by
  refine mem_searchFor.mpr ⟨?_, h⟩
  have hlen := h.1
  have hpos : 0 < pat.length := List.length_pos.mpr hpat
  omega

theorem searchFor_eq_nil_patFree {p : PdfPage} {pat : PStr}
    (hpat : pat ≠ []) (h : searchFor p pat = []) : patFree p pat := by
  intro i hocc
  have := occursAt_mem_searchFor hpat hocc
  rw [h] at this
  exact absurd this (List.not_mem_nil i)

theorem patFree_searchFor_eq_nil {p : PdfPage} {pat : PStr}
    (h : patFree p pat) : searchFor p pat = [] := by
  simp only [searchFor, List.filter_eq_nil_iff]
  intro i _
  simpa using h i

/-- Redacting every found occurrence of a (nonempty) pattern leaves a page
with no occurrence of that pattern. -/
theorem patFree_redactPat (p : PdfPage) (pat : PStr) (hpat : pat ≠ []) :
    patFree (redactPat p pat) pat := by
  intro i hocc
  have horig : occursAt p pat i := occursAt_blankFrom hocc
  have hmem : i ∈ searchFor p pat := occursAt_mem_searchFor hpat horig
  have hcov : coveredB p pat i = true := by
    rw [coveredB, List.any_eq_true]
    refine ⟨i, hmem, ?_⟩
    have : 0 < pat.length := List.length_pos.mpr hpat
    simp only [Bool.and_eq_true, decide_eq_true_eq]
    omega
  have hpos : 0 < pat.length := List.length_pos.mpr hpat
  have := hocc.2 0 hpos
  rw [redactPat, getD_blankFrom] at this
  simp [hcov] at this

/-- Redacting any pattern preserves freedom from `pat`. -/
theorem patFree_redactPat_mono {p : PdfPage} {pat : PStr} (q : PStr)
    (h : patFree p pat) : patFree (redactPat p q) pat :=
  fun i hocc => h i (occursAt_blankFrom hocc)

theorem redactPageGo_preserves_patFree (wl : List PStr) {pat : PStr} :
    ∀ p m, patFree p pat → patFree (redactPageGo wl p m).1 pat := by
  induction wl with
  | nil => intro p m h; exact h
  | cons q rest ih =>
    intro p m h
    rw [redactPageGo]
    split
    · exact ih p m h
    · exact ih (redactPat p q) true (patFree_redactPat_mono q h)

theorem redactPageGo_snd_true (wl : List PStr) :
    ∀ p, (redactPageGo wl p true).2 = true := by
  induction wl with
  | nil => intro p; rfl
  | cons q rest ih =>
    intro p
    rw [redactPageGo]
    split
    · exact ih p
    · exact ih (redactPat p q)

/-- After the per-page loop, the page is free of every nonempty pattern of
the watermark list. -/
theorem redactPageGo_patFree (pat : PStr) (hpat : pat ≠ []) :
    ∀ (wl : List PStr) p m, pat ∈ wl →
    patFree (redactPageGo wl p m).1 pat := by
  intro wl
  induction wl with
  | nil => intro p m hmem; exact absurd hmem (List.not_mem_nil pat)
  | cons q rest ih =>
    intro p m hmem
    rw [redactPageGo]
    split
    next hnil =>
      rcases List.mem_cons.mp hmem with rfl | hmem'
      · exact redactPageGo_preserves_patFree rest p m
          (searchFor_eq_nil_patFree hpat hnil)
      · exact ih p m hmem'
    next =>
      rcases List.mem_cons.mp hmem with rfl | hmem'
      · exact redactPageGo_preserves_patFree rest (redactPat p pat) true
          (patFree_redactPat p pat hpat)
      · exact ih (redactPat p q) true hmem'

/-- If some listed pattern occurs on the original page, the per-page loop
reports the page as modified. -/
theorem redactPageGo_modified (pat : PStr) :
    ∀ (wl : List PStr) p m, pat ∈ wl → searchFor p pat ≠ [] →
    (redactPageGo wl p m).2 = true := by
  intro wl
  induction wl with
  | nil => intro p m hmem; exact absurd hmem (List.not_mem_nil pat)
  | cons q rest ih =>
    intro p m hmem hocc
    rw [redactPageGo]
    split
    next hnil =>
      rcases List.mem_cons.mp hmem with rfl | hmem'
      · exact absurd hnil hocc
      · exact ih p m hmem' hocc
    next => exact redactPageGo_snd_true rest (redactPat p q)

/-- If no listed pattern occurs on the page, the per-page loop changes
nothing. -/
theorem redactPageGo_noop :
    ∀ (wl : List PStr) p m, (∀ pat ∈ wl, searchFor p pat = []) →
    redactPageGo wl p m = (p, m) := by
  intro wl
  induction wl with
  | nil => intro p m _; rfl
  | cons q rest ih =>
    intro p m h
    rw [redactPageGo]
    rw [if_pos (h q (List.mem_cons_self q rest))]
    exact ih p m fun pat hmem => h pat (List.mem_cons_of_mem q hmem)

/-- A concrete watermark pattern. -/
def wmPat : PStr := pstr "机密水印"

/-- A concrete page containing the watermark pattern. -/
def pageWm : PdfPage := (pstr "页眉 机密水印 正文").map some

/-- A concrete page containing no watermark pattern. -/
def pageClean : PdfPage := (pstr "普通内容").map some

/-- C4: if some page of the document contains an exact-text occurrence of a
configured (nonempty) watermark pattern, the direct redaction path returns
a document, and on that returned document no page has any extractable
occurrence of that pattern. -/
theorem claim_C4_direct_redaction_removes_pattern :
    ∀ (doc : List PdfPage) (wl : List PStr) (pat : PStr),
    pat ∈ wl → pat ≠ [] →
    (∃ pg ∈ doc, searchFor pg pat ≠ []) →
    ∃ out, removeWatermarksDirect doc wl = some out ∧
      ∀ pg ∈ out, searchFor pg pat = [] := by
  intro doc wl pat hmem hpat hex
  obtain ⟨pg0, hpg0, hocc⟩ := hex
  have hany : (doc.map fun pg => redactPagePatterns pg wl).any
      (fun r => r.2) = true := by
    rw [List.any_eq_true]
    exact ⟨redactPagePatterns pg0 wl, List.mem_map_of_mem _ hpg0,
      redactPageGo_modified pat wl pg0 false hmem hocc⟩
  refine ⟨(doc.map fun pg => redactPagePatterns pg wl).map (fun r => r.1),
    ?_, ?_⟩
  · simp only [removeWatermarksDirect]
    rw [if_pos hany]
  · intro pg hpg
    simp only [List.map_map, List.mem_map, Function.comp] at hpg
    obtain ⟨pg', _, rfl⟩ := hpg
    exact patFree_searchFor_eq_nil
      (redactPageGo_patFree pat hpat wl pg' false hmem)

/-- Witness for C4: a one-page document carrying the watermark. -/
theorem claim_C4_direct_redaction_removes_pattern_witness :
    wmPat ∈ [wmPat] ∧ wmPat ≠ [] ∧ (∃ pg ∈ [pageWm], searchFor pg wmPat ≠ []) ∧
    ∃ out, removeWatermarksDirect [pageWm] [wmPat] = some out ∧
      ∀ pg ∈ out, searchFor pg wmPat = [] :=
  ⟨by decide, by decide, by decide,
    claim_C4_direct_redaction_removes_pattern [pageWm] [wmPat] wmPat
      (by decide) (by decide) (by decide)⟩

/-- C5: on a document on which no page contains any occurrence of any
configured watermark pattern, the direct path reports no result (`None`),
and `remove_watermarks` then produces its output through the image-based
heuristic path. -/
theorem claim_C5_no_match_falls_back_to_images :
    ∀ (doc : List PdfPage) (wl : List PStr)
      (raster : List PdfPage → List (CvImage × List CvRect)),
    (∀ pg ∈ doc, ∀ pat ∈ wl, searchFor pg pat = []) →
    removeWatermarksDirect doc wl = none ∧
    removeWatermarks raster doc wl =
      Sum.inr (removeWatermarksViaImages (raster doc) wl) := by
  intro doc wl raster h
  have hdir : removeWatermarksDirect doc wl = none := by
    have hfalse : (doc.map fun pg => redactPagePatterns pg wl).any
        (fun r => r.2) = false := by
      rw [List.any_eq_false]
      rintro r hr
      rw [List.mem_map] at hr
      obtain ⟨pg, hpg, rfl⟩ := hr
      rw [redactPagePatterns, redactPageGo_noop wl pg false (h pg hpg)]
      simp
    simp only [removeWatermarksDirect]
    rw [if_neg (by simp [hfalse])]
  exact ⟨hdir, by rw [removeWatermarks, hdir]⟩

/-- Witness for C5: a clean one-page document falls through to the image
path (here rasterized by a trivial oracle). -/
theorem claim_C5_no_match_falls_back_to_images_witness :
    (∀ pg ∈ [pageClean], ∀ pat ∈ [wmPat], searchFor pg pat = []) ∧
    removeWatermarksDirect [pageClean] [wmPat] = none ∧
    removeWatermarks (fun _ => []) [pageClean] [wmPat] =
      Sum.inr (removeWatermarksViaImages ((fun _ => []) [pageClean]) [wmPat]) :=
  ⟨by decide,
    (claim_C5_no_match_falls_back_to_images [pageClean] [wmPat] (fun _ => [])
      (by decide)).1,
    (claim_C5_no_match_falls_back_to_images [pageClean] [wmPat] (fun _ => [])
      (by decide)).2⟩

/- ===================================================================
   Lemmas about the image-based heuristic path
   =================================================================== -/

theorem imageStep_width (wl : List PStr) (im : CvImage) (r : CvRect) :
    (imageStep wl im r).width = im.width := by
  rw [imageStep]
  split
  · split <;> rfl
  · rfl

theorem imageStep_height (wl : List PStr) (im : CvImage) (r : CvRect) :
    (imageStep wl im r).height = im.height := by
  rw [imageStep]
  split
  · split <;> rfl
  · rfl

theorem foldl_imageStep_width (wl : List PStr) :
    ∀ (cs : List CvRect) (im : CvImage),
    (List.foldl (imageStep wl) im cs).width = im.width := by
  intro cs
  induction cs with
  | nil => intro im; rfl
  | cons r rest ih =>
    intro im
    rw [List.foldl_cons, ih, imageStep_width]

theorem foldl_imageStep_height (wl : List PStr) :
    ∀ (cs : List CvRect) (im : CvImage),
    (List.foldl (imageStep wl) im cs).height = im.height := by
  intro cs
  induction cs with
  | nil => intro im; rfl
  | cons r rest ih =>
    intro im
    rw [List.foldl_cons, ih, imageStep_height]

/-- Painting only sets pixels to white, so a white pixel stays white. -/
theorem imageStep_preserves_white (wl : List PStr) (im : CvImage) (r : CvRect)
    (c rr : Nat) (h : im.pix c rr = 255) : (imageStep wl im r).pix c rr = 255 := by
  rw [imageStep]
  split
  · split
    · simp only [paintRect]
      split
      · rfl
      · exact h
    · exact h
  · exact h

theorem foldl_imageStep_preserves_white (wl : List PStr) (c rr : Nat) :
    ∀ (cs : List CvRect) (im : CvImage), im.pix c rr = 255 →
    (List.foldl (imageStep wl) im cs).pix c rr = 255 := by
  intro cs
  induction cs with
  | nil => intro im h; exact h
  | cons r rest ih =>
    intro im h
    rw [List.foldl_cons]
    exact ih _ (imageStep_preserves_white wl im r c rr h)

/-- A 1000×1000 all-black page image. -/
def imgTest : CvImage := ⟨1000, 1000, fun _ _ => 0⟩

/-- A candidate region at the left edge, 100 wide and 30 tall: it passes
the positional filter of `_remove_watermarks_from_image` but fails
`_is_watermark_region_multi` (its height is not `< 20`). -/
def rectMid : CvRect := ⟨0, 0, 100, 30⟩

/-- A candidate region at the left edge, 100 wide and 15 tall: it passes
both filters. -/
def rectSmall : CvRect := ⟨0, 0, 100, 15⟩

/-- C6, counterexample: the claim says every candidate region in the left
half of the page with height strictly between 10 and 60 and width strictly
between 50 and 400 is painted white.  `rectMid` (x = 0, w = 100, h = 30) on
a 1000×1000 image satisfies all of that, yet after
`_remove_watermarks_from_image` an interior pixel of the region still has
its original value 0, not white (255): the code additionally requires
`_is_watermark_region_multi` (h < 20 and w < 200), which h = 30 fails. -/
theorem claim_C6_counterexample :
    (2 * rectMid.x < imgTest.width ∧ 10 < rectMid.h ∧ rectMid.h < 60 ∧
      50 < rectMid.w ∧ rectMid.w < 400) ∧
    rectMid.x + rectMid.w ≤ imgTest.width ∧
    rectMid.y + rectMid.h ≤ imgTest.height ∧
    (removeWatermarksFromImage imgTest [rectMid] [wmPat]).pix 5 5 = 0 := by
  refine ⟨by decide, by decide, by decide, ?_⟩
  decide

/-- C6, amended: on the heuristic image path, every detected candidate
region that satisfies the code's combined filter — horizontal position in
the left 40% of the page (`5·x < 2·width`), height strictly between 10 and
20, width strictly between 50 and 200 (the conjunction of the positional
filter `10 < h < 60 ∧ 50 < w < 400` with `_is_watermark_region_multi`'s
`h < 20 ∧ w < 200`) — is painted white: every pixel of the region is 255
in the processed image. -/
theorem claim_C6_amended :
    ∀ (img : CvImage) (contours : List CvRect) (wl : List PStr) (r : CvRect),
    r ∈ contours →
    5 * r.x < 2 * img.width → 10 < r.h → r.h < 20 → 50 < r.w → r.w < 200 →
    r.x + r.w ≤ img.width → r.y + r.h ≤ img.height →
    ∀ c rr, r.x ≤ c → c < r.x + r.w → r.y ≤ rr → rr < r.y + r.h →
    (removeWatermarksFromImage img contours wl).pix c rr = 255 := by
  intro img contours wl r hmem hx hh1 hh2 hw1 hw2 hxw hyh c rr hc1 hc2 hr1 hr2
  obtain ⟨l1, l2, rfl⟩ := List.append_of_mem hmem
  have hsplit : removeWatermarksFromImage img (l1 ++ r :: l2) wl =
      List.foldl (imageStep wl) (imageStep wl (List.foldl (imageStep wl) img l1) r) l2 := by
    rw [removeWatermarksFromImage, List.foldl_append, List.foldl_cons]
  rw [hsplit]
  have hwd : (List.foldl (imageStep wl) img l1).width = img.width :=
    foldl_imageStep_width wl l1 img
  have hht : (List.foldl (imageStep wl) img l1).height = img.height :=
    foldl_imageStep_height wl l1 img
  refine foldl_imageStep_preserves_white wl c rr l2 _ ?_
  rw [imageStep]
  split
  · split
    · simp only [paintRect]
      split
      · rfl
      next hnot => exact absurd (by omega) hnot
    next hnot =>
      exfalso
      apply hnot
      simp only [isWatermarkRegionMulti, Bool.and_eq_true, decide_eq_true_eq]
      omega
  next hnot => exact absurd (by omega) hnot

/-- Witness for C6's amended claim: `rectSmall` passes the combined filter
and its pixels come out white. -/
theorem claim_C6_amended_witness :
    rectSmall ∈ [rectSmall] ∧ 5 * rectSmall.x < 2 * imgTest.width ∧
    10 < rectSmall.h ∧ rectSmall.h < 20 ∧ 50 < rectSmall.w ∧
    rectSmall.w < 200 ∧ rectSmall.x + rectSmall.w ≤ imgTest.width ∧
    rectSmall.y + rectSmall.h ≤ imgTest.height ∧
    (removeWatermarksFromImage imgTest [rectSmall] [wmPat]).pix 10 5 = 255 :=
  ⟨by decide, by decide, by decide, by decide, by decide, by decide,
    by decide, by decide,
    claim_C6_amended imgTest [rectSmall] [wmPat] rectSmall (by decide)
      (by decide) (by decide) (by decide) (by decide) (by decide) (by decide)
      (by decide) 10 5 (by decide) (by decide) (by decide) (by decide)⟩

/-- C10: the heuristic image path never reads the watermark pattern list —
`_is_watermark_region_multi` ignores its `watermark_list` argument — so the
processed image is identical for any two pattern lists. -/
theorem claim_C10_pattern_independent :
    ∀ (img : CvImage) (contours : List CvRect) (wl1 wl2 : List PStr),
    removeWatermarksFromImage img contours wl1 =
      removeWatermarksFromImage img contours wl2 := by
  intro img contours wl1 wl2
  rfl

/- ===================================================================
   Lemmas about the WeChat formatter (claim C7)
   =================================================================== -/

theorem truncLoop_length :
    ∀ (l : List PStr) (acc : PStr), acc.length ≤ 395 →
    (truncLoop l acc).length ≤ 395 := by
  intro l
  induction l with
  | nil => intro acc h; exact h
  | cons sent rest ih =>
    intro acc h
    rw [truncLoop]
    split
    next hfit => exact ih _ hfit
    next => exact h

theorem truncLoop_suffix :
    ∀ (l : List PStr) (acc : PStr),
    (acc = [] ∨ pstr "。" <:+ acc) →
    (truncLoop l acc = [] ∨ pstr "。" <:+ truncLoop l acc) := by
  intro l
  induction l with
  | nil => intro acc h; exact h
  | cons sent rest ih =>
    intro acc h
    rw [truncLoop]
    split
    · exact ih _ (Or.inr ⟨acc ++ sent, by simp⟩)
    · exact h

theorem formatWechatOutput_length (s fn : PStr) :
    (formatWechatOutput s fn).length ≤ 400 := by
  rw [formatWechatOutput]
  split
  next =>
    split
    next =>
      calc (truncLoop (splitOnChar '。' (wechatClean s)) []).length
          ≤ 395 := truncLoop_length _ [] (by simp)
        _ ≤ 400 := by omega
    next =>
      simp only [List.length_append, List.length_take]
      have : (pstr "...").length = 3 := by decide
      omega
  next hle => omega

theorem formatWechatOutput_over_budget (s fn : PStr)
    (h : 400 < (wechatClean s).length) :
    pstr "。" <:+ formatWechatOutput s fn ∨
    pstr "..." <:+ formatWechatOutput s fn := by
  rw [formatWechatOutput]
  rw [if_pos h]
  split
  next hne =>
    rcases truncLoop_suffix (splitOnChar '。' (wechatClean s)) [] (Or.inl rfl) with
      hnil | hsuf
    · exact absurd hnil hne
    · exact Or.inl hsuf
  next => exact Or.inr (List.suffix_append _ _)

theorem fallbackSummary_length (t fn : PStr) :
    (fallbackSummary t fn).length ≤ 400 := by
  rw [fallbackSummary]
  simp

theorem wechatQwenStage_length (env : LLMEnv) (t fn prompt : PStr) :
    (wechatQwenStage env t fn prompt).length ≤ 400 := by
  rw [wechatQwenStage]
  split
  · rcases hq : (env.qwenResponse prompt).map pstrip with e | s <;> simp only [hq]
    · exact fallbackSummary_length t fn
    · exact formatWechatOutput_length s fn
  · exact fallbackSummary_length t fn

theorem wechatGeminiStage_length (env : LLMEnv) (t fn prompt : PStr) :
    (wechatGeminiStage env t fn prompt).length ≤ 400 := by
  rw [wechatGeminiStage]
  split
  · rcases hg : (env.geminiResponse prompt).map pstrip with e | s <;> simp only [hg]
    · exact wechatQwenStage_length env t fn prompt
    · exact formatWechatOutput_length s fn
  · exact wechatQwenStage_length env t fn prompt

/-- A provider answer of 401 identical characters (over the 400 budget). -/
def longA : PStr := List.replicate 401 '析'

/-- C7: for every environment, input text and filename — in particular for
arbitrarily long provider-generated text — `generate_wechat_summary`
returns a string of at most 400 characters (first conjunct; this covers
the provider-success path through `_format_wechat_output` as well as the
no-provider fallback path); and whenever the cleaned provider text exceeds
the budget, the formatted output is cut at a complete sentence boundary
(it ends with `。`) or hard-truncated with the ellipsis marker (it ends
with `...`) (second conjunct). -/
theorem claim_C7_wechat_budget :
    (∀ (env : LLMEnv) (pdfText filename : PStr),
      (generateWechatSummary env pdfText filename).length ≤ 400) ∧
    (∀ s filename : PStr, 400 < (wechatClean s).length →
      pstr "。" <:+ formatWechatOutput s filename ∨
      pstr "..." <:+ formatWechatOutput s filename) := by
  constructor
  · intro env t fn
    rw [generateWechatSummary]
    split
    · rcases hd : (env.deepseekResponse (createWechatPrompt t fn)).map pstrip with
        e | s <;> simp only [hd]
      · exact wechatGeminiStage_length env t fn _
      · exact formatWechatOutput_length s fn
    · exact wechatGeminiStage_length env t fn _
  · exact formatWechatOutput_over_budget

set_option maxRecDepth 100000 in
/-- Witness for C7's over-budget conjunct: a 401-character provider answer
is truncated and ends with a sentence mark or the ellipsis. -/
theorem claim_C7_wechat_budget_witness :
    400 < (wechatClean longA).length ∧
    (pstr "。" <:+ formatWechatOutput longA (pstr "报告.pdf") ∨
      pstr "..." <:+ formatWechatOutput longA (pstr "报告.pdf")) :=
  ⟨by decide, claim_C7_wechat_budget.2 longA (pstr "报告.pdf") (by decide)⟩

/- ===================================================================
   Lemmas about combine_summaries (claim C8)
   =================================================================== -/

theorem pyMaxGo_spec (key : PStr → Nat) :
    ∀ (l : List PStr) (best : PStr),
    (pyMaxGo key best l = best ∨ pyMaxGo key best l ∈ l) ∧
    key best ≤ key (pyMaxGo key best l) ∧
    ∀ y ∈ l, key y ≤ key (pyMaxGo key best l) := by
  intro l
  induction l with
  | nil => intro best; exact ⟨Or.inl rfl, Nat.le_refl _, by simp⟩
  | cons y ys ih =>
    intro best
    rw [pyMaxGo]
    split
    next hlt =>
      obtain ⟨hmem, hbest, hall⟩ := ih y
      refine ⟨?_, Nat.le_trans (Nat.le_of_lt hlt) hbest, ?_⟩
      · rcases hmem with h | h
        · exact Or.inr (by rw [h]; exact List.mem_cons_self y ys)
        · exact Or.inr (List.mem_cons_of_mem y h)
      · intro z hz
        rcases List.mem_cons.mp hz with rfl | hz'
        · exact hbest
        · exact hall z hz'
    next hnlt =>
      obtain ⟨hmem, hbest, hall⟩ := ih best
      refine ⟨?_, hbest, ?_⟩
      · rcases hmem with h | h
        · exact Or.inl h
        · exact Or.inr (List.mem_cons_of_mem y h)
      · intro z hz
        rcases List.mem_cons.mp hz with rfl | hz'
        · exact Nat.le_trans (Nat.le_of_not_lt hnlt) hbest
        · exact hall z hz'

/-- Python's `max(l, key=key)` on a nonempty list returns an element of the
list whose key is maximal. -/
theorem pyMax_spec (key : PStr → Nat) (l : List PStr) (h : l ≠ []) :
    pyMax key l ∈ l ∧ ∀ y ∈ l, key y ≤ key (pyMax key l) := by
  cases l with
  | nil => exact absurd rfl h
  | cons x xs =>
    rw [pyMax]
    obtain ⟨hmem, hbest, hall⟩ := pyMaxGo_spec key xs x
    refine ⟨?_, ?_⟩
    · rcases hmem with h' | h'
      · exact by rw [h']; exact List.mem_cons_self x xs
      · exact List.mem_cons_of_mem x h'
    · intro y hy
      rcases List.mem_cons.mp hy with rfl | hy'
      · exact hbest
      · exact hall y hy'

/-- An enumeration of the distinct elements, in first-occurrence order: one
legitimate possibility for Python's set iteration order. -/
def dedupOrder : List PStr → List PStr := fun l => l.dedup

/-- An enumeration of the distinct elements in reversed first-occurrence
order: another legitimate possibility for Python's set iteration order. -/
def revDedupOrder : List PStr → List PStr := fun l => l.dedup.reverse

/-- A per-file WeChat summary naming 高盛 and a 买入 rating. -/
def sumA : PStr := pstr "高盛观点: 贵州茅台\n买入评级"

/-- A per-file WeChat summary naming 大摩 and a 买入 rating. -/
def sumB : PStr := pstr "大摩观点: 腾讯控股\n买入评级"

/-- A per-file WeChat summary naming 大摩 and an 增持 rating. -/
def tieB : PStr := pstr "大摩观点: 腾讯控股\n增持评级"

/-- C8, counterexample: the claimed tie-break by the fixed keyword order
(buy 买入 before overweight 增持) is not implemented.  The consensus rating
is computed by Python's `max(set(ratings), key=ratings.count)`, and the
iteration order of a Python `set` of strings is hash-based and unspecified
(and randomized between processes).  With the collected ratings
`[买入, 增持]` — a tie, one of each — a legitimate set enumeration that
lists 增持 first (here `revDedupOrder`, a permutation of the distinct
elements) makes the consensus name 增持, not 买入 as the claimed tie-break
requires. -/
theorem claim_C8_counterexample :
    ratingsOf [sumA, tieB] = [pstr "买入", pstr "增持"] ∧
    revDedupOrder (ratingsOf [sumA, tieB]) = [pstr "增持", pstr "买入"] ∧
    (revDedupOrder (ratingsOf [sumA, tieB])).Perm
      (ratingsOf [sumA, tieB]).dedup ∧
    hasSub (pstr "一致增持评级")
      (combineSummaries dedupOrder revDedupOrder [sumA, tieB]) = true ∧
    hasSub (pstr "买入")
      (combineSummaries dedupOrder revDedupOrder [sumA, tieB]) = false := by
  refine ⟨by decide, by decide, by decide, by decide, by decide⟩

/-- C8, amended: `combine_summaries` of the empty list is the fixed
no-results sentinel, of a one-element list is that element unchanged; for
two or more summaries the consensus rating is an element of maximal count
among the collected rating keywords (a majority-vote winner) — but the tie
between equal counts is broken by the unspecified set-iteration order, not
by the fixed keyword-check order; when the collected ratings are unanimous
there is no tie, so in particular two summaries that both contain 买入
yield the consensus rating 买入, and on concrete such inputs the rendered
consensus string names 买入. -/
theorem claim_C8_amended :
    (∀ so ro, combineSummaries so ro [] = pstr "未找到有效分析结果") ∧
    (∀ so ro x, combineSummaries so ro [x] = x) ∧
    (∀ (ro : List PStr → List PStr) ss,
      (ro (ratingsOf ss)).Perm (ratingsOf ss).dedup → ratingsOf ss ≠ [] →
      consensusRating ro ss ∈ ratingsOf ss ∧
      ∀ r ∈ ratingsOf ss,
        (ratingsOf ss).count r ≤ (ratingsOf ss).count (consensusRating ro ss)) ∧
    (∀ (ro : List PStr → List PStr) a b,
      hasSub (pstr "买入") a = true → hasSub (pstr "买入") b = true →
      (ro (ratingsOf [a, b])).Perm (ratingsOf [a, b]).dedup →
      consensusRating ro [a, b] = pstr "买入") ∧
    hasSub (pstr "一致买入评级")
      (combineSummaries dedupOrder dedupOrder [sumA, sumB]) = true := by
  refine ⟨fun so ro => rfl, fun so ro x => rfl, ?_, ?_, by decide⟩
  · intro ro ss hperm hne
    have hro_ne : ro (ratingsOf ss) ≠ [] := by
      intro h0
      rw [h0] at hperm
      exact hne ((List.dedup_eq_nil _).mp (List.Perm.eq_nil hperm.symm))
    rw [consensusRating, if_neg hne]
    obtain ⟨hmem, hall⟩ :=
      pyMax_spec (fun r => (ratingsOf ss).count r) (ro (ratingsOf ss)) hro_ne
    constructor
    · exact List.mem_dedup.mp ((List.Perm.mem_iff hperm).mp hmem)
    · intro r hr
      exact hall r ((List.Perm.mem_iff hperm).mpr (List.mem_dedup.mpr hr))
  · intro ro a b ha hb hperm
    have hrl : ratingsOf [a, b] = [pstr "买入", pstr "买入"] := by
      simp [ratingsOf, ha, hb]
    rw [hrl] at hperm
    have hded : ([pstr "买入", pstr "买入"] : List PStr).dedup =
        [pstr "买入"] := by decide
    rw [hded] at hperm
    have hro : ro (ratingsOf [a, b]) = [pstr "买入"] := by
      rw [hrl]
      exact List.perm_singleton.mp hperm
    rw [consensusRating, if_neg (by rw [hrl]; simp), hro]
    rfl

/-- Witness for C8's amended claim: two concrete summaries both containing
买入 give the consensus rating 买入 (under the first-occurrence set
enumeration, a permutation of the distinct collected ratings). -/
theorem claim_C8_amended_witness :
    hasSub (pstr "买入") sumA = true ∧ hasSub (pstr "买入") sumB = true ∧
    (dedupOrder (ratingsOf [sumA, sumB])).Perm (ratingsOf [sumA, sumB]).dedup ∧
    consensusRating dedupOrder [sumA, sumB] = pstr "买入" :=
  ⟨by decide, by decide, by decide,
    claim_C8_amended.2.2.2.1 dedupOrder sumA sumB (by decide) (by decide)
      (by decide)⟩
